import Mathlib

/-!
Verification development for the Jamo frontend library
(`src/Store.js`, `src/Component.js` containing `Component` and `App`).

The JavaScript sources are shallowly embedded below:

* `JStore` with `configure` / `getState` / `dispatch` / `subscribe` /
  `runUnsubscribe` mirrors `Store.js` line by line, including JavaScript
  truthiness on the `slice` argument of `getState`, on missing reducers
  and on missing directory entries.
* JS values are `JsVal` (with an explicit `undefined` for `undefined`); JS
  objects used as dictionaries (`this.state`, the component directory)
  are association lists `JsObj` where a missing key reads as `undefined`.
* Listener callbacks are identified by reference; we model a callback
  reference as a `Nat` identity, so `l !== listener` is `≠` on `Nat`.
* Exceptions become explicit error results.  `Store.dispatch` is modelled
  as returning the (possibly unchanged) store, the list of listener
  identities it invoked, and an optional error: an exception thrown
  before the mutating assignment leaves the store exactly as it was,
  which is what the returned store expresses.
-/

/-- JavaScript runtime values, as far as the store needs them.  `undefined`
is JavaScript `undefined`, the result of reading an absent object key. -/
inductive JsVal : Type where
  | undefined : JsVal
  | num : Int → JsVal
  | str : String → JsVal
  | bool : Bool → JsVal
  deriving DecidableEq

/-- A JavaScript object used as a string-keyed dictionary (`this.state`,
`initialState`).  Keys are kept in insertion order, as JS does. -/
def JsObj : Type := List (String × JsVal)

instance : DecidableEq JsObj := by unfold JsObj; infer_instance

/-- Property read `o[k]`: the first binding for `k`, `undefined` if absent. -/
def JsObj.get : JsObj → String → JsVal
  | [], _ => .undefined
  | (k', v') :: rest, k => if k' = k then v' else JsObj.get rest k

/-- Property write `o[k] = v`: overwrite the existing binding in place,
append a new binding otherwise. -/
def JsObj.set : JsObj → String → JsVal → JsObj
  | [], k, v => [(k, v)]
  | (k', v') :: rest, k, v =>
      if k' = k then (k, v) :: rest else (k', v') :: JsObj.set rest k v

/-- An action `{ slice, type, payload }` as dispatched to the store. -/
structure JAction : Type where
  slice : String
  type : String
  payload : JsVal
  deriving DecidableEq

/-- A reducer `(currentSliceValue, action) => newSliceValue`. -/
def Reducer : Type := JsVal → JAction → JsVal

/-- The errors `Store.js` can throw. -/
inductive StoreErr : Type where
  /-- "Initial state and reducers must be provided." -/
  | configurationError : StoreErr
  /-- "Store is not configured. Call configure() before using other methods." -/
  | notConfigured : StoreErr
  /-- "Reducer for slice \"S\" not found." -/
  | unknownSlice : String → StoreErr
  deriving DecidableEq

/-- The `Store` class state: `this.state`, `this.reducers`,
`this.listeners`, `this.isConfigured`.  `reducers` is a lookup returning
`none` where JS would read `undefined` (functions are always truthy, so
`Option` captures the `!this.reducers[slice]` check);
`listeners` reads as `[]` where JS has no entry yet, which is
indistinguishable from the code's create-on-demand empty array. -/
structure JStore : Type where
  state : JsObj
  reducers : String → Option Reducer
  listeners : String → List Nat
  isConfigured : Bool

/-- The store as built by `new Store()`. -/
def JStore.init : JStore :=
  { state := [], reducers := fun _ => none, listeners := fun _ => [], isConfigured := false }

/-- `configure({ initialState, reducers })`.  `!initialState || !reducers`
is absence of either argument (objects are truthy in JS). -/
def JStore.configure (st : JStore) (initialState : Option JsObj)
    (reducers : Option (String → Option Reducer)) : Except StoreErr JStore :=
  match initialState, reducers with
  | some i, some r => .ok { st with state := i, reducers := r, isConfigured := true }
  | _, _ => .error .configurationError

/-- Truthiness of the optional `slice` argument of `getState`: absent and
`""` are falsy. -/
def sliceTruthy : Option String → Bool
  | none => false
  | some s => !(s = "")

/-- `getState(slice)`: `checkConfigured()`, then
`slice ? this.state[slice] : this.state`.  The whole-state result is the
left summand, a single slice's value the right one. -/
def JStore.getState (st : JStore) (slice : Option String) :
    Except StoreErr (JsObj ⊕ JsVal) :=
  if st.isConfigured = false then .error .notConfigured
  else .ok (if sliceTruthy slice then .inr (st.state.get (slice.getD "")) else .inl st.state)

/-- `dispatch(action)`.  Returns the store after the call, the listener
references invoked (in `forEach` order) and the error thrown, if any.
Both throw sites precede the assignment `this.state[slice] = ...`, so on
an error the returned store is the input store. -/
def JStore.dispatch (st : JStore) (a : JAction) : JStore × List Nat × Option StoreErr :=
  if st.isConfigured = false then (st, [], some .notConfigured)
  else
    match st.reducers a.slice with
    | none => (st, [], some (.unknownSlice a.slice))
    | some r =>
        let st' := { st with state := st.state.set a.slice (r (st.state.get a.slice) a) }
        (st', st.listeners a.slice, none)

/-- `subscribe(slice, listener)`: `checkConfigured()`, create-on-demand
empty array, `push`.  The listener is a callback reference `l : Nat`. -/
def JStore.subscribe (st : JStore) (slice : String) (l : Nat) : Except StoreErr JStore :=
  if st.isConfigured = false then .error .notConfigured
  else .ok { st with listeners := fun s =>
    if s = slice then st.listeners slice ++ [l] else st.listeners s }

/-- Invoking the unsubscribe closure returned by `subscribe(slice, l)`:
`this.listeners[slice] = this.listeners[slice].filter((x) => x !== l)`. -/
def JStore.runUnsubscribe (st : JStore) (slice : String) (l : Nat) : JStore :=
  { st with listeners := fun s =>
    if s = slice then (st.listeners slice).filter (fun x => x ≠ l) else st.listeners s }

/-- A sequence of `dispatch` calls, keeping the store each call returns
(on a throw the store is unchanged, as in the code). -/
def JStore.dispatchAll (st : JStore) (as : List JAction) : JStore :=
  as.foldl (fun s a => (s.dispatch a).1) st

/-- Subscribing a list of listener references to one slice in order.  (On
a throw the store is kept as it was; the claims below only use it on a
configured store, where every call succeeds.) -/
def JStore.subscribeAll (st : JStore) (slice : String) (ls : List Nat) : JStore :=
  ls.foldl (fun s l => ((s.subscribe slice l).toOption).getD s) st

/-!
Reference-level model of `getState` for the aliasing question: line 29 of
`Store.js` is `return slice ? this.state[slice] : this.state`, which hands
back the very object reference stored in `this.state`, with no copy.  To
talk about mutation through that reference we model JS object identity
explicitly: a heap maps references (`Nat`) to objects.
-/

/-- Heap-level JS values: a value is a primitive or an object reference. -/
inductive HVal : Type where
  | undefined : HVal
  | num : Int → HVal
  | ref : Nat → HVal
  deriving DecidableEq

/-- Fields of one heap object. -/
def HObj : Type := List (String × HVal)

instance : DecidableEq HObj := by unfold HObj; infer_instance

/-- Field read on a heap object, `undefined` when absent. -/
def HObj.get : HObj → String → HVal
  | [], _ => .undefined
  | (k', v') :: rest, k => if k' = k then v' else HObj.get rest k

/-- Field write on a heap object. -/
def HObj.set : HObj → String → HVal → HObj
  | [], k, v => [(k, v)]
  | (k', v') :: rest, k, v =>
      if k' = k then (k, v) :: rest else (k', v') :: HObj.set rest k v

/-- A heap: object references mapped to objects. -/
def Heap : Type := List (Nat × HObj)

/-- The object a reference denotes, if allocated. -/
def Heap.findObj : Heap → Nat → Option HObj
  | [], _ => none
  | (r', o) :: rest, r => if r' = r then some o else Heap.findObj rest r

/-- The object a reference denotes (`[]` for a dangling reference, which
never occurs in the scenarios below). -/
def Heap.objAt (h : Heap) (r : Nat) : HObj := (h.findObj r).getD []

/-- The caller's mutation `v[k] = w` performed on object `r`. -/
def Heap.writeField : Heap → Nat → String → HVal → Heap
  | [], _, _, _ => []
  | (r', o) :: rest, r, k, v =>
      if r' = r then (r', HObj.set o k v) :: rest
      else (r', o) :: Heap.writeField rest r k v

/-- Reading field `k` through a value: follows the reference into the
heap; a primitive has no fields. -/
def derefField (h : Heap) (v : HVal) (k : String) : HVal :=
  match v with
  | .ref r => (h.objAt r).get k
  | _ => .undefined

/-- The store at the reference level: `this.state` holds a reference to
the (heap-allocated) state object. -/
structure RefStore : Type where
  stateRef : HVal
  isConfigured : Bool

/-- `getState()` with no argument (falsy `slice` branch of line 29):
`checkConfigured()`, then `return this.state` — the internal reference
itself, uncopied. -/
def RefStore.getStateWhole (st : RefStore) : Except StoreErr HVal :=
  if st.isConfigured = false then .error .notConfigured else .ok st.stateRef

/-!
Concrete stores used by the witnesses and counterexamples.
-/

/-- The `count` reducer of the spec's scenario:
`(s, a) => a.type === 'INC' ? s + 1 : s`. -/
def cntRed : Reducer := fun v a =>
  if a.type = "INC" then (match v with | .num n => .num (n + 1) | _ => v) else v

/-- A reducers object with a single slice `count`. -/
def cntReducers : String → Option Reducer :=
  fun s => if s = "count" then some cntRed else none

/-- Initial state `{ count: 0 }`. -/
def cntInit : JsObj := [("count", JsVal.num 0)]

/-- The store after `configure({ initialState: cntInit, reducers: cntReducers })`. -/
def cntStore : JStore :=
  { state := cntInit, reducers := cntReducers, listeners := fun _ => [], isConfigured := true }

/-- The action `{ slice: 'count', type: 'INC' }`. -/
def incA : JAction := ⟨"count", "INC", JsVal.undefined⟩

/-- Reducers object whose only slice is the empty-named one. -/
def emptyNameReducers : String → Option Reducer :=
  fun s => if s = "" then some (fun _ _ => JsVal.num 7) else none

/-- A configured store whose single slice has the empty string as name
(the store `configure` produces from `JStore.init` for that input). -/
def emptyNameStore : JStore :=
  { state := [("", JsVal.num 0)], reducers := emptyNameReducers,
    listeners := fun _ => [], isConfigured := true }

/-- The action `{ slice: '', type: 'SET' }` aimed at the empty-named slice. -/
def setA : JAction := ⟨"", "SET", JsVal.undefined⟩

/-- A configured store with one listener (reference `5`) on `count`. -/
def preSt : JStore :=
  { state := [("count", JsVal.num 0)], reducers := cntReducers,
    listeners := fun s => if s = "count" then [5] else [], isConfigured := true }

/-- `preSt` after a second `configure` with state `{ count: 9 }`. -/
def preSt2 : JStore :=
  { preSt with state := [("count", JsVal.num 9)], reducers := cntReducers, isConfigured := true }

/-- A heap holding one state object `{ count: 0 }` at reference `0`. -/
def c7Heap : Heap := [(0, [("count", HVal.num 0)])]

/-- A configured reference-level store whose `this.state` is reference `0`. -/
def c7Store : RefStore := ⟨HVal.ref 0, true⟩

/-!
Component engine (`Component.js`, class `Component`).  Modelling notes:

* A DOM element is `Elem`: tag, optional `data-component` attribute,
  children.  HTML parsing is abstracted: the resource environment maps a
  template path directly to its parsed single root element
  (`#parseHTML`'s `firstChild`), and a style path to its CSS text.
* `Component.config` (the component directory) is taken as already
  loaded and cached (`#loadConfig`'s lazy fetch of the configuration
  file is configuration-loading mechanics, outside the claims).
* `render()` = `#setup()` + `initialize()`; the base-class hook is a
  no-op and is not modelled.
* Observable I/O is a trace of events `Ev`: the two resource fetches of
  `#fetchTemplateAndStyles` (issued together via `Promise.all`), the
  dynamic `import()` of `#renderNestedComponents`, the style `<style>`
  insertion of `#applyStyles`, and every `console.error` (which carries
  the caught cause, the only place the cause remains observable, since
  both `catch` blocks rethrow fixed generic `Error`s).
* The style-registration ledger is the list of `<style>` element ids in
  `document.head`, in insertion order; `#applyStyles` checks
  `document.getElementById(id)` before inserting.
* `querySelectorAll("[data-component]")` returns the static pre-order
  list of descendants carrying the attribute (the element itself is not
  a candidate).  The loop renders every entry of that static list; a
  `placeholder.replaceWith` detaches the placeholder's subtree, so in
  the final tree exactly the outermost placeholders are replaced.  The
  rendered element for a type is a function of the environment and the
  fuel alone (the ledger influences only the trace), so replacement can
  be keyed by component name.
* The JS recursion can diverge (a component whose template references
  itself); the model uses fuel, and `fuelExhausted` marks the runs the
  JS engine would never complete.  `renderComp (fuel+1)` hands
  `renderComp fuel` to the loop helpers as the child-render function.
-/

/-- A DOM element: tag name, optional `data-component` attribute, children. -/
inductive Elem : Type where
  | el : String → Option String → List Elem → Elem

/-- The `data-component` attribute (`placeholder.dataset.component`). -/
def Elem.dataComponent : Elem → Option String
  | .el _ dc _ => dc

mutual

/-- All proper descendants of an element, in document (pre)order. -/
def Elem.descendants : Elem → List Elem
  | .el _ _ cs => descendantsList cs

/-- Pre-order traversal of a forest: each root followed by its descendants. -/
def descendantsList : List Elem → List Elem
  | [] => []
  | c :: cs => c :: c.descendants ++ descendantsList cs

end

/-- `this.element.querySelectorAll("[data-component]")`: the static
pre-order list of descendants that carry the attribute. -/
def placeholdersOf (e : Elem) : List Elem :=
  e.descendants.filter (fun p => p.dataComponent.isSome)

/-- The world the engine runs against: the component directory
configuration, the set of existing class-module paths, and the fetchable
template and style resources (templates already parsed). -/
structure CEnv : Type where
  componentDirectory : List (String × String)
  modules : List String
  templates : List (String × Elem)
  styles : List (String × String)

/-- The errors arising in `Component.js`. -/
inductive CompErr : Type where
  /-- "Component configuration not found for NAME" (thrown in `#setPaths`). -/
  | componentNotConfigured : String → CompErr
  /-- A rejected resource fetch (the cause caught in `#fetchTemplateAndStyles`). -/
  | fetchRejected : String → CompErr
  /-- "Error fetching template or styles." -/
  | fetchError : CompErr
  /-- A rejected dynamic `import()` in `#renderNestedComponents`. -/
  | importFailed : String → CompErr
  /-- "Error fetching, parsing, or rendering template or styles." -/
  | setupError : CompErr
  /-- Model artifact: the recursion the JS engine would never finish. -/
  | fuelExhausted : CompErr
  deriving DecidableEq

/-- Observable events, in order of occurrence. -/
inductive Ev : Type where
  | fetchTemplate : String → Ev
  | fetchStyles : String → Ev
  | importAttempt : String → Ev
  | styleInject : String → Ev
  | logError : CompErr → Ev
  | invalidPath : String → Ev
  deriving DecidableEq

/-- The result of a child-render function: outcome, style ledger after,
events emitted. -/
def RenderRes (α : Type) : Type := Except CompErr α × List String × List Ev

/-- One iteration of the `for (const placeholder of placeholders)` loop
in `#renderNestedComponents`, with `child` the recursive render:
read `dataset.component`; `continue` when falsy; build the import path
`"/" + directoryPath + componentName + ".js"` (an undefined directory
stringifies to "undefined"); attempt the import; on success construct
and render the child.  Returns the replacement pair, `none` when skipped. -/
def stepWith (child : String → List String → RenderRes Elem) (env : CEnv)
    (p : Elem) (inj : List String) : RenderRes (Option (String × Elem)) :=
  match p.dataComponent with
  | none => (.ok none, inj, [])
  | some nm =>
      if nm = "" then (.ok none, inj, [])
      else
        let path := "/" ++ (match env.componentDirectory.lookup nm with
          | some d => d
          | none => "undefined") ++ nm ++ ".js"
        if path ∈ env.modules then
          match child nm inj with
          | (.ok childEl, inj', evs) =>
              (.ok (some (nm, childEl)), inj', .importAttempt path :: evs)
          | (.error e, inj', evs) => (.error e, inj', .importAttempt path :: evs)
        else (.error (.importFailed path), inj, [.importAttempt path])

/-- The whole placeholder loop, strictly left to right, stopping at the
first thrown error; collects the name-to-rendered-element pairs. -/
def listWith (child : String → List String → RenderRes Elem) (env : CEnv) :
    List Elem → List String → RenderRes (List (String × Elem))
  | [], inj => (.ok [], inj, [])
  | p :: ps, inj =>
      match stepWith child env p inj with
      | (.ok none, inj', evs) =>
          match listWith child env ps inj' with
          | (res, inj'', evs') => (res, inj'', evs ++ evs')
      | (.ok (some pr), inj', evs) =>
          match listWith child env ps inj' with
          | (.ok rest, inj'', evs') => (.ok (pr :: rest), inj'', evs ++ evs')
          | (.error e, inj'', evs') => (.error e, inj'', evs ++ evs')
      | (.error e, inj', evs) => (.error e, inj', evs)

mutual

/-- Replacement of the rendered children into the tree: an outermost
truthy placeholder is replaced by the element rendered for its name (its
old subtree disappears with it, as `replaceWith` does); other nodes keep
their position and recurse. -/
def replaceNode (assoc : List (String × Elem)) : Elem → Elem
  | .el tag dc cs =>
      match dc with
      | some nm =>
          if nm = "" then .el tag dc (replaceNodeList assoc cs)
          else (assoc.lookup nm).getD (.el tag dc cs)
      | none => .el tag dc (replaceNodeList assoc cs)

/-- `replaceNode` over a sibling list. -/
def replaceNodeList (assoc : List (String × Elem)) : List Elem → List Elem
  | [] => []
  | c :: cs => replaceNode assoc c :: replaceNodeList assoc cs

end

/-- Replacement applied below the root (`querySelectorAll` never matches
the element itself). -/
def replaceChildren (assoc : List (String × Elem)) : Elem → Elem
  | .el tag dc cs => .el tag dc (replaceNodeList assoc cs)

/-- `componentInstance.render()` for the component type `name`:
`#setPaths` (directory lookup, throw if falsy), `#fetchTemplateAndStyles`
(both fetches issued, failure logged and wrapped), `#parseHTML`,
`#applyStyles` (ledger check by style-element id), then the placeholder
loop, and the `catch` of `#setup` logging any cause and throwing the
generic setup error.  Fuel bounds the recursion depth. -/
def renderComp : Nat → CEnv → String → List String → RenderRes Elem
  | 0, _, _, inj => (.error .fuelExhausted, inj, [])
  | fuel + 1, env, name, inj =>
      let dirT := (env.componentDirectory.lookup name).getD ""
      if dirT = "" then
        (.error .setupError, inj, [.logError (.componentNotConfigured name)])
      else
        let tpath := dirT ++ name ++ ".html"
        let spath := dirT ++ name ++ ".css"
        let fevs : List Ev := [.fetchTemplate tpath, .fetchStyles spath]
        match env.templates.lookup tpath, env.styles.lookup spath with
        | some tpl, some _ =>
            let sid := name ++ "-styles"
            let inj1 := if sid ∈ inj then inj else inj ++ [sid]
            let sevs : List Ev := if sid ∈ inj then [] else [.styleInject sid]
            match listWith (fun nm inj' => renderComp fuel env nm inj') env
                (placeholdersOf tpl) inj1 with
            | (.ok assoc, inj2, evs2) =>
                (.ok (replaceChildren assoc tpl), inj2, fevs ++ sevs ++ evs2)
            | (.error e, inj2, evs2) =>
                (.error .setupError, inj2, fevs ++ sevs ++ evs2 ++ [.logError e])
        | none, _ =>
            (.error .setupError, inj,
              fevs ++ [.logError (.fetchRejected tpath), .logError .fetchError])
        | some _, none =>
            (.error .setupError, inj,
              fevs ++ [.logError (.fetchRejected spath), .logError .fetchError])

/-- Modelled from the spec's words (refinement reference for the
sequencing claim): "sibling placeholders are resolved strictly in
document order, each fully completing (including its own descendants)
before the next sibling begins".  The trace is built as one block per
placeholder, each block the complete trace of that child's resolution
started in the state its predecessors left, stopping at the first error. -/
def seqBlocks (child : String → List String → RenderRes Elem) (env : CEnv) :
    List Elem → List String → List (List Ev) × List String
  | [], inj => ([], inj)
  | p :: ps, inj =>
      match stepWith child env p inj with
      | (.ok _, inj', evs) =>
          let rest := seqBlocks child env ps inj'
          (evs :: rest.1, rest.2)
      | (.error _, inj', evs) => ([evs], inj')

/-!
Router (`Component.js`, class `App`).  `handleRouting` reads the current
hash, looks the route up; on a miss it logs "Invalid Path" and returns,
leaving the mounted content untouched; on a hit `loadPage` clears the
root element (`innerHTML = ""`), renders the page component and appends
the result.  The root element's children are the mounted content; a
route maps the hash to the registered component's type name, rendered by
the engine above.  (On a render failure the append never runs and the
rejection leaves the root cleared.)
-/

/-- `handleRouting()` followed by the `loadPage` it may start. -/
def handleRouting (fuel : Nat) (env : CEnv) (routes : List (String × String))
    (hash : String) (prior : List Elem) (inj : List String) :
    List Elem × List String × List Ev :=
  match routes.lookup hash with
  | none => (prior, inj, [.invalidPath hash])
  | some name =>
      match renderComp fuel env name inj with
      | (.ok e, inj', evs) => ([e], inj', evs)
      | (.error _, inj', evs) => ([], inj', evs)

/-!
Concrete component scenarios for witnesses and counterexamples.
-/

/-- The child template, a single leaf element. -/
def childTpl : Elem := .el "p" none []

/-- A root template with two sibling placeholders of the same type. -/
def mainTpl : Elem :=
  .el "div" none [.el "div" (some "Child") [], .el "div" (some "Child") []]

/-- Environment where `Main` (two `Child` siblings) and `Child` are both
configured with all resources present. -/
def c5Env : CEnv :=
  { componentDirectory := [("Main", "m/"), ("Child", "c/")]
    modules := ["/m/Main.js", "/c/Child.js"]
    templates := [("m/Main.html", mainTpl), ("c/Child.html", childTpl)]
    styles := [("m/Main.css", ".main"), ("c/Child.css", ".child")] }

/-- Environment where `Main` is configured but its placeholder type
`Child` has no directory entry and no module at the undefined path. -/
def c6Env : CEnv :=
  { componentDirectory := [("Main", "m/")]
    modules := ["/m/Main.js"]
    templates := [("m/Main.html", .el "div" none [.el "div" (some "Child") []])]
    styles := [("m/Main.css", ".main")] }

/-!
Theorems.  Helper lemmas first, then one theorem (plus witness or
counterexample where required) per claim.
-/

/-- Writing a key and reading it back yields the written value. -/
theorem JsObj.get_set_same (o : JsObj) (k : String) (v : JsVal) :
    (o.set k v).get k = v := by
  induction o with
  | nil => simp [JsObj.set, JsObj.get]
  | cons p rest ih =>
      obtain ⟨k', v'⟩ := p
      by_cases h : k' = k <;> simp [JsObj.set, JsObj.get, h, ih]

/-- On a configured store with a reducer for the action's slice,
`dispatch` stores the reducer's result and reports that slice's
listeners, throwing nothing. -/
theorem JStore.dispatch_ok (st : JStore) (a : JAction) (R : Reducer)
    (hc : st.isConfigured = true) (hR : st.reducers a.slice = some R) :
    st.dispatch a =
      ({ st with state := st.state.set a.slice (R (st.state.get a.slice) a) },
        st.listeners a.slice, none) := by
  simp [JStore.dispatch, hc, hR]

/-- A sequence of dispatches all aimed at slice `S` folds `S`'s reducer
over the actions, and touches neither configuration nor listeners. -/
theorem JStore.dispatchAll_fold (S : String) (R : Reducer) (as : List JAction) :
    ∀ st : JStore, st.isConfigured = true → st.reducers S = some R →
      (∀ a ∈ as, a.slice = S) →
      (st.dispatchAll as).state.get S = as.foldl R (st.state.get S) ∧
      (st.dispatchAll as).isConfigured = true ∧
      (st.dispatchAll as).reducers = st.reducers ∧
      (st.dispatchAll as).listeners = st.listeners := by
  induction as with
  | nil => intro st hc hR _; simp [JStore.dispatchAll, hc]
  | cons a as ih =>
      intro st hc hR hs
      have haS : a.slice = S := hs a (by simp)
      have hd := JStore.dispatch_ok st a R hc (by rw [haS]; exact hR)
      have hun : st.dispatchAll (a :: as) = ((st.dispatch a).1).dispatchAll as := rfl
      rw [hun, hd]
      have := ih { st with state := st.state.set a.slice (R (st.state.get a.slice) a) }
        hc hR (fun b hb => hs b (by simp [hb]))
      simp only [haS] at this ⊢
      rw [(this.1 : _), JsObj.get_set_same]
      exact ⟨rfl, this.2⟩

/-- C1, amended to nonempty slice names: for every configured store,
every slice `S` with a nonempty name, and every sequence of actions
aimed at `S`, `getState(S)` after dispatching them all equals the left
fold of `S`'s reducer over the actions, starting from `S`'s value in the
configured initial state. -/
theorem c1_getState_is_fold (st0 st1 : JStore) (i : JsObj)
    (rs : String → Option Reducer) (S : String) (R : Reducer) (as : List JAction)
    (hcfg : st0.configure (some i) (some rs) = .ok st1)
    (hS : S ≠ "") (hR : rs S = some R) (hs : ∀ a ∈ as, a.slice = S) :
    (st1.dispatchAll as).getState (some S) = .ok (.inr (as.foldl R (i.get S))) := by
  have hst1 : st1 = { st0 with state := i, reducers := rs, isConfigured := true } := by
    simpa [JStore.configure] using hcfg.symm
  subst hst1
  have h := JStore.dispatchAll_fold S R as
    { st0 with state := i, reducers := rs, isConfigured := true } rfl hR hs
  simp [JStore.getState, h.2.1, sliceTruthy, hS, h.1]

/-- C1 witness: the spec's scenario: `configure({count: 0}, {count: inc-reducer})`,
dispatch `INC` three times, and `getState('count')` is the three-step fold
(whose value is 3). -/
theorem c1_getState_is_fold_witness :
    JStore.init.configure (some cntInit) (some cntReducers) = .ok cntStore ∧
    (cntStore.dispatchAll [incA, incA, incA]).getState (some "count") =
      .ok (.inr ([incA, incA, incA].foldl cntRed (cntInit.get "count"))) ∧
    [incA, incA, incA].foldl cntRed (cntInit.get "count") = JsVal.num 3 :=
  ⟨rfl,
   c1_getState_is_fold JStore.init cntStore cntInit cntReducers "count" cntRed
     [incA, incA, incA] rfl (by decide) rfl (by decide),
   by decide⟩

/-- C1 counterexample: for the slice whose name is the empty string (a
legal slice name with a configured reducer), `getState("")` takes the
falsy branch and returns the whole state mapping, not the fold of the
slice's reducer — the claim fails as stated for that slice. -/
theorem c1_counterexample :
    JStore.init.configure (some [("", JsVal.num 0)]) (some emptyNameReducers) =
      .ok emptyNameStore ∧
    (emptyNameStore.dispatchAll [setA]).getState (some "") =
      .ok (.inl [("", JsVal.num 7)]) ∧
    (emptyNameStore.dispatchAll [setA]).getState (some "") ≠
      .ok (.inr (List.foldl (fun _ _ => JsVal.num 7)
        (JsObj.get [("", JsVal.num 0)] "") [setA])) := by
  refine ⟨rfl, rfl, ?_⟩
  intro h
  have h3 : Sum.inl (α := JsObj) (β := JsVal) [("", JsVal.num 7)] =
      .inr (List.foldl (fun _ _ => JsVal.num 7)
        (JsObj.get [("", JsVal.num 0)] "") [setA]) := by
    have h2 : (emptyNameStore.dispatchAll [setA]).getState (some "") =
        .ok (.inl [("", JsVal.num 7)]) := rfl
    rw [h2] at h
    exact Except.ok.inj h
  simp at h3

/-- C3: a dispatch before `configure` throws `NotConfiguredError` and a
dispatch to a slice with no reducer throws `UnknownSliceError`; in both
cases the returned store is exactly the input store (no slice value
changed) and the list of invoked listeners is empty. -/
theorem c3_dispatch_error_atomic (st : JStore) (a : JAction) :
    (st.isConfigured = false →
      st.dispatch a = (st, [], some .notConfigured)) ∧
    (st.isConfigured = true → st.reducers a.slice = none →
      st.dispatch a = (st, [], some (.unknownSlice a.slice))) := by
  constructor
  · intro h; simp [JStore.dispatch, h]
  · intro h hR; simp [JStore.dispatch, h, hR]

/-- C3 witness: a dispatch on the fresh store and a dispatch to the
unknown slice `x` of a configured store, both erroring atomically. -/
theorem c3_dispatch_error_atomic_witness :
    JStore.init.dispatch incA = (JStore.init, [], some .notConfigured) ∧
    cntStore.dispatch ⟨"x", "INC", JsVal.undefined⟩ =
      (cntStore, [], some (.unknownSlice "x")) :=
  ⟨(c3_dispatch_error_atomic JStore.init incA).1 rfl,
   (c3_dispatch_error_atomic cntStore ⟨"x", "INC", JsVal.undefined⟩).2 rfl rfl⟩

/-- C8, amended: before `configure`, `getState` and `subscribe` on any
slice throw `NotConfiguredError`; after `configure`, a slice name with no
reducer makes `getState` return the stored value (`undefined` for an
absent key) without any error, and makes `subscribe` silently append the
listener — neither throws `UnknownSliceError`. -/
theorem c8_unknown_slice_no_error (st : JStore) (slice : String) (l : Nat) :
    (st.isConfigured = false →
      st.getState (some slice) = .error .notConfigured ∧
      st.subscribe slice l = .error .notConfigured) ∧
    (st.isConfigured = true → slice ≠ "" → st.reducers slice = none →
      st.getState (some slice) = .ok (.inr (st.state.get slice)) ∧
      ∃ st' : JStore, st.subscribe slice l = .ok st' ∧
        st'.listeners slice = st.listeners slice ++ [l]) := by
  constructor
  · intro h
    constructor
    · simp [JStore.getState, h]
    · simp [JStore.subscribe, h]
  · intro hc hS _
    refine ⟨by simp [JStore.getState, hc, sliceTruthy, hS], ?_⟩
    exact ⟨{ st with listeners := fun s =>
        if s = slice then st.listeners slice ++ [l] else st.listeners s },
      by simp [JStore.subscribe, hc], by simp⟩

/-- C8 witness: the fresh store errors with `NotConfiguredError`, and the
configured `count` store, asked about the unknown slice `missing`,
answers without an `UnknownSliceError`. -/
theorem c8_unknown_slice_no_error_witness :
    (JStore.init.getState (some "missing") = .error .notConfigured ∧
      JStore.init.subscribe "missing" 7 = .error .notConfigured) ∧
    cntStore.getState (some "missing") = .ok (.inr (cntStore.state.get "missing")) :=
  ⟨(c8_unknown_slice_no_error JStore.init "missing" 7).1 rfl,
   ((c8_unknown_slice_no_error cntStore "missing" 7).2 rfl (by decide) rfl).1⟩

/-- C8 counterexample: on the configured `count` store, `getState` for
the unknown slice `missing` returns `undefined` instead of throwing
`UnknownSliceError`, and `subscribe` registers listener `7` under
`missing` instead of throwing — the claimed errors do not occur. -/
theorem c8_counterexample :
    cntStore.getState (some "missing") = .ok (.inr JsVal.undefined) ∧
    cntStore.getState (some "missing") ≠ .error (.unknownSlice "missing") ∧
    cntStore.subscribe "missing" 7 =
      .ok { cntStore with listeners := fun s =>
        if s = "missing" then cntStore.listeners "missing" ++ [7] else cntStore.listeners s } ∧
    cntStore.subscribe "missing" 7 ≠ .error (.unknownSlice "missing") := by
  refine ⟨rfl, ?_, rfl, ?_⟩
  · intro h
    have h2 : cntStore.getState (some "missing") = .ok (.inr JsVal.undefined) := rfl
    rw [h2] at h
    exact Except.noConfusion h
  · intro h
    have h2 : cntStore.subscribe "missing" 7 =
        .ok { cntStore with listeners := fun s =>
          if s = "missing" then cntStore.listeners "missing" ++ [7]
          else cntStore.listeners s } := rfl
    rw [h2] at h
    exact Except.noConfusion h

/-- C10: a second `configure` replaces the state and the reducers and
leaves every slice's listener list untouched (same references, same
order); a dispatch afterwards still invokes exactly those listeners. -/
theorem c10_reconfigure_keeps_listeners (st1 st2 : JStore) (i' : JsObj)
    (r' : String → Option Reducer)
    (_hc : st1.isConfigured = true)
    (h2 : st1.configure (some i') (some r') = .ok st2) :
    st2.state = i' ∧ st2.reducers = r' ∧ st2.isConfigured = true ∧
    (∀ s : String, st2.listeners s = st1.listeners s) ∧
    (∀ a : JAction, ∀ R : Reducer, r' a.slice = some R →
      (st2.dispatch a).2.1 = st1.listeners a.slice) := by
  have hst2 : st2 = { st1 with state := i', reducers := r', isConfigured := true } := by
    simpa [JStore.configure] using h2.symm
  subst hst2
  refine ⟨rfl, rfl, rfl, fun s => rfl, ?_⟩
  intro a R hR
  simp [JStore.dispatch, hR]

/-- C10 witness: `preSt` (configured, listener `5` on `count`) is
reconfigured to state `{count: 9}`; the listener survives and a
subsequent `INC` dispatch still invokes it. -/
theorem c10_reconfigure_keeps_listeners_witness :
    preSt.configure (some [("count", JsVal.num 9)]) (some cntReducers) = .ok preSt2 ∧
    preSt2.listeners "count" = [5] ∧
    (preSt2.dispatch incA).2.1 = [5] := by
  have h := c10_reconfigure_keeps_listeners preSt preSt2 [("count", JsVal.num 9)]
    cntReducers rfl rfl
  exact ⟨rfl, h.2.2.2.1 "count", h.2.2.2.2 incA cntRed rfl⟩

/-- Subscribing the references `ls` one after another appends them, in
order, to the slice's listener list, and changes nothing else. -/
theorem JStore.subscribeAll_spec (S : String) (ls : List Nat) :
    ∀ st : JStore, st.isConfigured = true →
      (st.subscribeAll S ls).listeners S = st.listeners S ++ ls ∧
      (st.subscribeAll S ls).isConfigured = true ∧
      (st.subscribeAll S ls).reducers = st.reducers ∧
      (st.subscribeAll S ls).state = st.state := by
  induction ls with
  | nil => intro st hc; simp [JStore.subscribeAll, hc]
  | cons l ls ih =>
      intro st hc
      have hstep : ((st.subscribe S l).toOption).getD st =
          { st with listeners := fun s =>
            if s = S then st.listeners S ++ [l] else st.listeners s } := by
        simp [JStore.subscribe, hc, Except.toOption]
      have hun : st.subscribeAll S (l :: ls) =
          (((st.subscribe S l).toOption).getD st).subscribeAll S ls := rfl
      rw [hun, hstep]
      have h := ih { st with listeners := fun s =>
        if s = S then st.listeners S ++ [l] else st.listeners s } hc
      refine ⟨?_, h.2.1, h.2.2.1, h.2.2.2⟩
      rw [h.1]
      simp

/-- For a duplicate-free list, removing all elements different from the
`k`-th keeps exactly the other elements in their original order. -/
theorem filter_ne_get_eq_eraseIdx :
    ∀ (L : List Nat), L.Nodup → ∀ (k : Nat) (hk : k < L.length),
      L.filter (fun x => x ≠ L.get ⟨k, hk⟩) = L.eraseIdx k := by
  intro L
  induction L with
  | nil => intro _ k hk; exact absurd hk (by simp)
  | cons a L ih =>
      intro hnd k hk
      have hmem : a ∉ L := (List.nodup_cons.mp hnd).1
      match k with
      | 0 =>
          show (a :: L).filter (fun x => x ≠ a) = L
          rw [List.filter_cons, if_neg (by simp)]
          exact List.filter_eq_self.mpr (fun x hx => by
            simp only [ne_eq, decide_eq_true_eq]
            intro he; exact hmem (he ▸ hx))
      | k + 1 =>
          have hk' : k < L.length := by simpa using hk
          have hget : (a :: L).get ⟨k + 1, hk⟩ = L.get ⟨k, hk'⟩ := rfl
          have hne : a ≠ L.get ⟨k, hk'⟩ := fun he =>
            hmem (he ▸ List.get_mem L k hk')
          rw [hget, List.filter_cons, if_pos (by simpa using hne)]
          rw [ih (List.nodup_cons.mp hnd).2 k hk']
          rfl

/-- Filtering twice with the same predicate is the same as once. -/
theorem filter_self_idem (p : Nat → Bool) (L : List Nat) :
    (L.filter p).filter p = L.filter p :=
  List.filter_eq_self.mpr (fun _ ha => (List.mem_filter.mp ha).2)

/-- Invoking an unsubscribe closure a second time changes nothing. -/
theorem JStore.runUnsubscribe_idem (st : JStore) (S : String) (l : Nat) :
    (st.runUnsubscribe S l).runUnsubscribe S l = st.runUnsubscribe S l := by
  simp only [JStore.runUnsubscribe]
  congr 1
  funext s
  by_cases h : s = S
  · simp [h, filter_self_idem]
  · simp [h]

/-- C2: on a configured store with no listeners yet on slice `S`,
subscribing the pairwise-distinct listener references `L` and dispatching
to `S` invokes exactly the members of `L`, in registration order; after
invoking the unsubscribe closure of the `k`-th listener, the list is `L`
with exactly that registration removed (the rest in original order), a
dispatch invokes exactly those remaining `N - 1` listeners, and invoking
the same closure again is a no-op. -/
theorem c2_subscribe_unsubscribe (st0 : JStore) (S : String) (R : Reducer)
    (L : List Nat) (a : JAction) (k : Nat)
    (hc : st0.isConfigured = true) (h0 : st0.listeners S = [])
    (hR : st0.reducers S = some R) (haS : a.slice = S)
    (hnd : L.Nodup) (hk : k < L.length) :
    ((st0.subscribeAll S L).dispatch a).2.1 = L ∧
    ((st0.subscribeAll S L).runUnsubscribe S (L.get ⟨k, hk⟩)).listeners S =
      L.eraseIdx k ∧
    (((st0.subscribeAll S L).runUnsubscribe S (L.get ⟨k, hk⟩)).dispatch a).2.1 =
      L.eraseIdx k ∧
    (L.eraseIdx k).length + 1 = L.length ∧
    (((st0.subscribeAll S L).runUnsubscribe S (L.get ⟨k, hk⟩)).runUnsubscribe S
        (L.get ⟨k, hk⟩)) =
      (st0.subscribeAll S L).runUnsubscribe S (L.get ⟨k, hk⟩) := by
  obtain ⟨hl, hcfg, hred, -⟩ := JStore.subscribeAll_spec S L st0 hc
  have hl' : (st0.subscribeAll S L).listeners S = L := by rw [hl, h0]; rfl
  have hRed' : (st0.subscribeAll S L).reducers a.slice = some R := by
    rw [haS, hred]; exact hR
  have hdisp1 : ((st0.subscribeAll S L).dispatch a).2.1 = L := by
    rw [JStore.dispatch_ok _ _ R hcfg hRed']
    simpa [haS] using hl'
  have hunl : ((st0.subscribeAll S L).runUnsubscribe S (L.get ⟨k, hk⟩)).listeners S =
      L.eraseIdx k := by
    simp only [JStore.runUnsubscribe, if_pos rfl]
    rw [hl']
    exact filter_ne_get_eq_eraseIdx L hnd k hk
  refine ⟨hdisp1, hunl, ?_, ?_, JStore.runUnsubscribe_idem _ _ _⟩
  · have hcfg2 : ((st0.subscribeAll S L).runUnsubscribe S (L.get ⟨k, hk⟩)).isConfigured
        = true := hcfg
    have hred2 : ((st0.subscribeAll S L).runUnsubscribe S
        (L.get ⟨k, hk⟩)).reducers a.slice = some R := hRed'
    rw [JStore.dispatch_ok _ _ R hcfg2 hred2]
    simpa [haS] using hunl
  · exact List.length_eraseIdx_add_one hk

/-- C2 witness: three distinct listener references on `count`; dispatch
invokes `[3, 5, 9]` in order; after unsubscribing the middle one a
dispatch invokes `[3, 9]`; a second unsubscribe invocation is a no-op. -/
theorem c2_subscribe_unsubscribe_witness :
    ((cntStore.subscribeAll "count" [3, 5, 9]).dispatch incA).2.1 = [3, 5, 9] ∧
    (((cntStore.subscribeAll "count" [3, 5, 9]).runUnsubscribe "count"
        5).dispatch incA).2.1 = [3, 9] := by
  have h := c2_subscribe_unsubscribe cntStore "count" cntRed [3, 5, 9] incA 1
    rfl rfl rfl rfl (by decide) (by decide)
  exact ⟨h.1, h.2.2.1⟩

/-- Writing a field of a heap object and reading it back yields the value. -/
theorem HObj.set_then_get (o : HObj) (k : String) (v : HVal) :
    (o.set k v).get k = v := by
  induction o with
  | nil => simp [HObj.set, HObj.get]
  | cons p rest ih =>
      obtain ⟨k', v'⟩ := p
      by_cases h : k' = k <;> simp [HObj.set, HObj.get, h, ih]

/-- Writing through a reference updates the object that reference denotes. -/
theorem Heap.objAt_writeField_same (h : Heap) (r : Nat) (k : String) (v : HVal)
    (halloc : (h.findObj r).isSome = true) :
    (h.writeField r k v).objAt r = (h.objAt r).set k v := by
  induction h with
  | nil => simp [Heap.findObj] at halloc
  | cons p rest ih =>
      obtain ⟨r', o⟩ := p
      by_cases hr : r' = r
      · simp [Heap.writeField, Heap.objAt, Heap.findObj, hr]
      · simp only [Heap.findObj, hr, if_false, ite_false] at halloc ⊢
        have := ih (by simpa [Heap.findObj, hr] using halloc)
        simpa [Heap.writeField, Heap.objAt, Heap.findObj, hr] using this

/-- C7, amended: `getState()` hands back the internal state reference
itself (line 29 copies nothing), so a caller mutation through the
returned reference is visible to every subsequent read through
`getState` — the internal mapping changes although `dispatch` was never
called. -/
theorem c7_getState_returns_alias (st : RefStore) (h : Heap) (r : Nat)
    (k : String) (v : HVal)
    (hc : st.isConfigured = true) (hr : st.stateRef = .ref r)
    (halloc : (h.findObj r).isSome = true) :
    st.getStateWhole = .ok st.stateRef ∧
    derefField (h.writeField r k v) st.stateRef k = v := by
  constructor
  · simp [RefStore.getStateWhole, hc]
  · rw [hr]
    show ((h.writeField r k v).objAt r).get k = v
    rw [Heap.objAt_writeField_same h r k v halloc, HObj.set_then_get]

/-- C7 witness: the caller writes `99` into `count` through the reference
`getState()` returned; reading back through that reference sees `99`. -/
theorem c7_getState_returns_alias_witness :
    c7Store.getStateWhole = .ok c7Store.stateRef ∧
    derefField (c7Heap.writeField 0 "count" (HVal.num 99)) c7Store.stateRef
      "count" = HVal.num 99 :=
  c7_getState_returns_alias c7Store c7Heap 0 "count" (HVal.num 99) rfl rfl (by decide)

/-- C7 counterexample: `getState()` returns the internal reference `0`;
mutating `count` through it changes what a subsequent `getState`-based
read observes (`99` instead of `0`), with no dispatch anywhere — the
claimed immutability fails. -/
theorem c7_counterexample :
    c7Store.getStateWhole = .ok (HVal.ref 0) ∧
    derefField c7Heap (HVal.ref 0) "count" = HVal.num 0 ∧
    derefField (c7Heap.writeField 0 "count" (HVal.num 99)) (HVal.ref 0)
      "count" = HVal.num 99 ∧
    derefField (c7Heap.writeField 0 "count" (HVal.num 99)) (HVal.ref 0) "count" ≠
      derefField c7Heap (HVal.ref 0) "count" :=
  ⟨rfl, rfl, rfl, by decide⟩
/-- C4: the placeholder loop of one engine invocation resolves siblings
strictly sequentially in document order: its event trace is exactly the
concatenation of one contiguous block per placeholder, each block being
the complete resolution trace (descendants included) of that child
started in the state its predecessors left, with no interleaving across
siblings; the final style ledgers agree likewise. -/
theorem c4_children_sequential (fuel : Nat) (env : CEnv) (ps : List Elem)
    (inj : List String) :
    (listWith (fun nm inj' => renderComp fuel env nm inj') env ps inj).2.2 =
      ((seqBlocks (fun nm inj' => renderComp fuel env nm inj') env ps inj).1).flatten ∧
    (listWith (fun nm inj' => renderComp fuel env nm inj') env ps inj).2.1 =
      (seqBlocks (fun nm inj' => renderComp fuel env nm inj') env ps inj).2 := by
  induction ps generalizing inj with
  | nil => exact ⟨rfl, rfl⟩
  | cons p ps ih =>
      rcases hstep : stepWith (fun nm inj' => renderComp fuel env nm inj') env p inj
        with ⟨res, inj', evs⟩
      cases res with
      | error e => simp [listWith, seqBlocks, hstep]
      | ok o =>
          rcases hrest : listWith (fun nm inj' => renderComp fuel env nm inj') env ps inj'
            with ⟨res', inj'', evs'⟩
          have hih := ih inj'
          rw [hrest] at hih
          have h1 : evs' =
              (seqBlocks (fun nm inj' => renderComp fuel env nm inj') env ps inj').1.flatten :=
            hih.1
          have h2 : inj'' =
              (seqBlocks (fun nm inj' => renderComp fuel env nm inj') env ps inj').2 :=
            hih.2
          cases o with
          | none =>
              simp only [listWith, seqBlocks, hstep, hrest]
              exact ⟨by simp [h1], h2⟩
          | some pr =>
              cases res' with
              | error e' =>
                  simp only [listWith, seqBlocks, hstep, hrest]
                  exact ⟨by simp [h1], h2⟩
              | ok rest =>
                  simp only [listWith, seqBlocks, hstep, hrest]
                  exact ⟨by simp [h1], h2⟩

/-- A single loop iteration never breaks duplicate-freeness of the style
ledger, provided the child-render function does not. -/
theorem stepWith_nodup (child : String → List String → RenderRes Elem)
    (env : CEnv) (p : Elem) (inj : List String)
    (hchild : ∀ nm inj0, inj0.Nodup → ((child nm inj0).2.1).Nodup)
    (h : inj.Nodup) : ((stepWith child env p inj).2.1).Nodup := by
  obtain ⟨tag, dc, cs⟩ := p
  rcases dc with _ | nm
  · exact h
  · show ((stepWith child env (.el tag (some nm) cs) inj).2.1).Nodup
    unfold stepWith
    dsimp only [Elem.dataComponent]
    by_cases hnm : nm = ""
    · simpa [hnm] using h
    · simp only [if_neg hnm]
      by_cases hp : ("/" ++ (match env.componentDirectory.lookup nm with
          | some d => d
          | none => "undefined") ++ nm ++ ".js") ∈ env.modules
      · simp only [if_pos hp]
        have hres := hchild nm inj h
        rcases hc : child nm inj with ⟨cres, inj', evs⟩
        rw [hc] at hres
        cases cres <;> simpa using hres
      · simpa [if_neg hp] using h

/-- The whole loop preserves duplicate-freeness of the style ledger. -/
theorem listWith_nodup (child : String → List String → RenderRes Elem)
    (env : CEnv) (ps : List Elem)
    (hchild : ∀ nm inj0, inj0.Nodup → ((child nm inj0).2.1).Nodup) :
    ∀ inj : List String, inj.Nodup → ((listWith child env ps inj).2.1).Nodup := by
  induction ps with
  | nil => intro inj h; exact h
  | cons p ps ih =>
      intro inj h
      have hst := stepWith_nodup child env p inj hchild h
      rcases hstep : stepWith child env p inj with ⟨res, inj', evs⟩
      rw [hstep] at hst
      cases res with
      | error e => simpa [listWith, hstep] using hst
      | ok o =>
          have hrec := ih inj' hst
          rcases hrest : listWith child env ps inj' with ⟨res', inj'', evs'⟩
          rw [hrest] at hrec
          cases o with
          | none => simpa [listWith, hstep, hrest] using hrec
          | some pr =>
              cases res' with
              | error e' => simpa [listWith, hstep, hrest] using hrec
              | ok rest => simpa [listWith, hstep, hrest] using hrec

/-- The engine never injects a style id twice: a duplicate-free ledger
stays duplicate-free through any render. -/
theorem renderComp_nodup : ∀ (fuel : Nat) (env : CEnv) (name : String)
    (inj : List String), inj.Nodup → ((renderComp fuel env name inj).2.1).Nodup := by
  intro fuel
  induction fuel with
  | zero => intro env name inj h; exact h
  | succ fuel ih =>
      intro env name inj h
      unfold renderComp
      by_cases hd : (env.componentDirectory.lookup name).getD "" = ""
      · simpa [hd] using h
      · simp only [if_neg hd]
        rcases ht : env.templates.lookup
            (((env.componentDirectory.lookup name).getD "") ++ name ++ ".html")
          with _ | tpl
        · simpa [ht] using h
        · rcases hs : env.styles.lookup
              (((env.componentDirectory.lookup name).getD "") ++ name ++ ".css")
            with _ | css
          · simpa [ht, hs] using h
          · simp only [ht, hs]
            have hinj1 : (if (name ++ "-styles") ∈ inj then inj
                else inj ++ [name ++ "-styles"]).Nodup := by
              by_cases hsid : (name ++ "-styles") ∈ inj
              · simpa [hsid] using h
              · simp [hsid, List.nodup_append, h]
            have hlw := listWith_nodup (fun nm inj' => renderComp fuel env nm inj') env
              (placeholdersOf tpl) (fun nm inj0 h0 => ih env nm inj0 h0) _ hinj1
            rcases hlwe : listWith (fun nm inj' => renderComp fuel env nm inj') env
                (placeholdersOf tpl)
                (if (name ++ "-styles") ∈ inj then inj else inj ++ [name ++ "-styles"])
              with ⟨res, inj2, evs2⟩
            rw [hlwe] at hlw
            cases res with
            | error e => simpa [hlwe] using hlw
            | ok assoc => simpa [hlwe] using hlw

/-- C5: a component type's style text is injected at most once
process-wide — renders keep the ledger of injected style ids
duplicate-free — and rendering the tree with two sibling `Child`
placeholders injects `Child-styles` exactly once while both child
instances are attached in the resulting tree. -/
theorem c5_styles_once_per_type :
    (∀ (fuel : Nat) (env : CEnv) (name : String) (inj : List String),
      inj.Nodup → ((renderComp fuel env name inj).2.1).Nodup) ∧
    (renderComp 2 c5Env "Main" []).1 = .ok (.el "div" none [childTpl, childTpl]) ∧
    (renderComp 2 c5Env "Main" []).2.1 = ["Main-styles", "Child-styles"] ∧
    ((renderComp 2 c5Env "Main" []).2.1).count "Child-styles" = 1 :=
  ⟨renderComp_nodup, rfl, rfl, by decide⟩

/-- C5 witness: the at-most-once part applied to the two-sibling
scenario, starting from the empty (trivially duplicate-free) ledger. -/
theorem c5_styles_once_per_type_witness :
    ((renderComp 2 c5Env "Main" []).2.1).Nodup :=
  c5_styles_once_per_type.1 2 c5Env "Main" [] List.nodup_nil

/-- C6, amended: a ROOT component whose type has no (truthy) directory
entry fails before any fetch or import: the trace holds only the logged
`ComponentNotConfigured` cause and `render` surfaces the generic setup
error with the ledger untouched.  A placeholder CHILD whose type has no
directory entry is treated differently: the loop first attempts the
dynamic class-module import at the path built from an undefined
directory, and when no module exists there it fails with the import
error — the child's own configuration check is never reached (though no
template or style fetch for the child happens either). -/
theorem c6_unconfigured_fails_before_fetch :
    (∀ (fuel : Nat) (env : CEnv) (name : String) (inj : List String),
      (env.componentDirectory.lookup name).getD "" = "" →
      renderComp (fuel + 1) env name inj =
        (.error .setupError, inj, [.logError (.componentNotConfigured name)])) ∧
    (∀ (fuel : Nat) (env : CEnv) (tag nm : String) (cs : List Elem)
      (inj : List String), nm ≠ "" →
      env.componentDirectory.lookup nm = none →
      ("/undefined" ++ nm ++ ".js") ∉ env.modules →
      stepWith (fun nm0 inj' => renderComp fuel env nm0 inj') env
          (.el tag (some nm) cs) inj =
        (.error (.importFailed ("/undefined" ++ nm ++ ".js")), inj,
          [.importAttempt ("/undefined" ++ nm ++ ".js")])) := by
  constructor
  · intro fuel env name inj hd
    simp [renderComp, hd]
  · intro fuel env tag nm cs inj hnm hdir hmod
    unfold stepWith
    dsimp only [Elem.dataComponent]
    simp only [if_neg hnm, hdir]
    have hpath : ("/" ++ "undefined" ++ nm ++ ".js") = ("/undefined" ++ nm ++ ".js") := by
      simp [String.append_assoc]
    rw [hpath, if_neg hmod]

/-- C6 witness: the root part on the type `Ghost` (absent from `c6Env`),
and the child part on a `Child` placeholder in `c6Env`. -/
theorem c6_unconfigured_fails_before_fetch_witness :
    renderComp 1 c6Env "Ghost" [] =
      (.error .setupError, [], [.logError (.componentNotConfigured "Ghost")]) ∧
    stepWith (fun nm0 inj' => renderComp 1 c6Env nm0 inj') c6Env
        (.el "div" (some "Child") []) [] =
      (.error (.importFailed "/undefinedChild.js"), [],
        [.importAttempt "/undefinedChild.js"]) :=
  ⟨c6_unconfigured_fails_before_fetch.1 0 c6Env "Ghost" [] (by decide),
   c6_unconfigured_fails_before_fetch.2 1 c6Env "div" "Child" [] [] (by decide)
     rfl (by decide)⟩

/-- C6 counterexample: rendering `Main` (configured) whose template holds
a placeholder child `Child` (unconfigured): an import is attempted at
"/undefinedChild.js" — observable I/O for the child's class resource —
and the run fails with the generic setup error after logging the import
failure; `ComponentNotConfigured` for `Child` is never raised or logged,
contradicting the claim for placeholder children. -/
theorem c6_counterexample :
    (renderComp 2 c6Env "Main" []).1 = .error .setupError ∧
    (renderComp 2 c6Env "Main" []).2.2 =
      [.fetchTemplate "m/Main.html", .fetchStyles "m/Main.css",
       .styleInject "Main-styles", .importAttempt "/undefinedChild.js",
       .logError (.importFailed "/undefinedChild.js")] ∧
    Ev.importAttempt "/undefinedChild.js" ∈ (renderComp 2 c6Env "Main" []).2.2 ∧
    Ev.logError (.componentNotConfigured "Child") ∉ (renderComp 2 c6Env "Main" []).2.2 := by
  refine ⟨rfl, rfl, ?_, ?_⟩
  · have h : (renderComp 2 c6Env "Main" []).2.2 =
        [.fetchTemplate "m/Main.html", .fetchStyles "m/Main.css",
         .styleInject "Main-styles", .importAttempt "/undefinedChild.js",
         .logError (.importFailed "/undefinedChild.js")] := rfl
    rw [h]
    decide
  · have h : (renderComp 2 c6Env "Main" []).2.2 =
        [.fetchTemplate "m/Main.html", .fetchStyles "m/Main.css",
         .styleInject "Main-styles", .importAttempt "/undefinedChild.js",
         .logError (.importFailed "/undefinedChild.js")] := rfl
    rw [h]
    decide

/-- C9: a routing event whose hash is absent from the route table logs
"Invalid Path" and leaves the mounted content exactly as it was (no
clear, no render, no further event); the clear-then-render happens only
when the hash is present, in which case the outcome is independent of
the prior content (it was cleared first). -/
theorem c9_invalid_route_keeps_content (fuel : Nat) (env : CEnv)
    (routes : List (String × String)) (hash : String) (prior : List Elem)
    (inj : List String) :
    (routes.lookup hash = none →
      handleRouting fuel env routes hash prior inj = (prior, inj, [.invalidPath hash])) ∧
    (∀ name, routes.lookup hash = some name →
      handleRouting fuel env routes hash prior inj =
        handleRouting fuel env routes hash [] inj) := by
  constructor
  · intro h
    simp [handleRouting, h]
  · intro name h
    simp only [handleRouting, h]

/-- C9 witness: with the single route `#/x` to `Main`, routing to the
unregistered `#/y` leaves the prior content `[childTpl]` in place; and
routing to the registered `#/x` ignores the prior content. -/
theorem c9_invalid_route_keeps_content_witness :
    handleRouting 2 c5Env [("#/x", "Main")] "#/y" [childTpl] [] =
      ([childTpl], [], [.invalidPath "#/y"]) ∧
    handleRouting 2 c5Env [("#/x", "Main")] "#/x" [childTpl] [] =
      handleRouting 2 c5Env [("#/x", "Main")] "#/x" [] [] :=
  ⟨(c9_invalid_route_keeps_content 2 c5Env [("#/x", "Main")] "#/y" [childTpl] []).1 rfl,
   (c9_invalid_route_keeps_content 2 c5Env [("#/x", "Main")] "#/x" [childTpl] []).2
     "Main" rfl⟩
